import Mathlib

/-!
Verification of the arvancloud libdns provider adapter.

This file gives a shallow embedding of the adapter's record codec, record
locator, provider facade (list / append / set / delete) and the transport
client's response handling, together with theorems settling the frozen
claims about the adapter.

Conventions of the embedding:
* Go strings are `List Char` (`GoStr`); Go byte/rune subtleties do not
  matter for any claim (all inputs exercised are ASCII).
* Go machine integers are `Int`/`Nat`; no claim exercises overflow.
* Fallible Go code returns `Except`/`Option`; a Go run-time panic (failed
  type assertion) is the distinguished outcome `Outcome.crashed`.
* The HTTP transport is an oracle (a record of functions giving the
  outcome of each REST call); the facade functions additionally return the
  trace of mutating calls they issued.
-/

/-- Go strings, modelled as lists of characters. -/
abbrev GoStr := List Char

/-- Coerce a Lean string literal to a `GoStr`. -/
def gs (s : String) : GoStr := s.toList

/-- ASCII lower-casing of one character (model of Unicode simple folding
restricted to ASCII, which is all the adapter's names and type tags use). -/
def asciiLower (c : Char) : Char :=
  if 65 ≤ c.toNat ∧ c.toNat ≤ 90 then Char.ofNat (c.toNat + 32) else c

/-- Model of Go `strings.EqualFold` (case-insensitive equality), restricted
to ASCII folding. -/
def equalFold (s t : GoStr) : Bool := s.map asciiLower == t.map asciiLower

/-- Model of Go `strings.HasPrefix`. -/
def strHasPre (s pre : GoStr) : Bool := pre.isPrefixOf s

/-- Model of Go `strings.HasSuffix`. -/
def strHasSuf (s suf : GoStr) : Bool := suf.isSuffixOf s

/-- Model of Go `strings.Contains` (substring containment). -/
def strContains (s sub : GoStr) : Bool := decide (sub <:+: s)

/-- Model of Go `strings.TrimSuffix` (removes one occurrence of the suffix
if present). -/
def strTrimSuf (s suf : GoStr) : GoStr :=
  if suf.isSuffixOf s then s.take (s.length - suf.length) else s

/-- Model of Go `strings.TrimPrefix` (removes one occurrence of the prefix
if present). -/
def strTrimPre (s pre : GoStr) : GoStr :=
  if pre.isPrefixOf s then s.drop pre.length else s

/-- Model of Go `strings.Trim(s, ".")`: strip all leading and trailing dots. -/
def strTrimDots (s : GoStr) : GoStr :=
  ((s.dropWhile (· == '.')).reverse.dropWhile (· == '.')).reverse

/-- One decimal digit character. -/
def decDigit (n : Nat) : Char := Char.ofNat (48 + n)

/-- One lowercase hexadecimal digit character. -/
def hexDigit (n : Nat) : Char := if n < 10 then Char.ofNat (48 + n) else Char.ofNat (87 + n)

/-- Decimal value of a digit character, if it is one. -/
def decVal (c : Char) : Option Nat :=
  if 48 ≤ c.toNat ∧ c.toNat ≤ 57 then some (c.toNat - 48) else none

/-- Hexadecimal value of a digit character, if it is one. -/
def hexVal (c : Char) : Option Nat :=
  if 48 ≤ c.toNat ∧ c.toNat ≤ 57 then some (c.toNat - 48)
  else if 97 ≤ c.toNat ∧ c.toNat ≤ 102 then some (c.toNat - 87)
  else if 65 ≤ c.toNat ∧ c.toNat ≤ 70 then some (c.toNat - 55)
  else none

/-- Minimal decimal rendering of a number below 1000 (an IPv4 octet). -/
def natToDec (n : Nat) : List Char :=
  if n < 10 then [decDigit n]
  else if n < 100 then [decDigit (n / 10), decDigit (n % 10)]
  else [decDigit (n / 100), decDigit (n / 10 % 10), decDigit (n % 10)]

/-- Fixed-width four-digit hexadecimal rendering of a 16-bit group. -/
def hex4 (n : Nat) : List Char :=
  [hexDigit (n / 4096 % 16), hexDigit (n / 256 % 16), hexDigit (n / 16 % 16), hexDigit (n % 16)]

/-- Escaping of one character as performed by Go `fmt.Sprintf("%q", ...)`
(`strconv.Quote`).  Printable ASCII passes through, quote and backslash are
backslash-escaped, common control characters get their named escapes and
everything else a `\u` escape.  (Go additionally passes printable non-ASCII
runes through unescaped; no claim exercises non-ASCII text.) -/
def goEscapeChar (c : Char) : List Char :=
  if c = '"' then ['\\', '"']
  else if c = '\\' then ['\\', '\\']
  else if c = '\n' then ['\\', 'n']
  else if c = '\t' then ['\\', 't']
  else if c = '\r' then ['\\', 'r']
  else if 32 ≤ c.toNat ∧ c.toNat ≤ 126 then [c]
  else '\\' :: 'u' :: hex4 c.toNat

/-- Model of Go `fmt.Sprintf("%q", s)`: a double-quoted Go string literal. -/
def goQuote (s : GoStr) : GoStr := '"' :: (s.map goEscapeChar).flatten ++ ['"']

/-- Characters that `goQuote` passes through verbatim: printable ASCII other
than the quote and the backslash. -/
def plainChar (c : Char) : Prop :=
  c ≠ '"' ∧ c ≠ '\\' ∧ 32 ≤ c.toNat ∧ c.toNat ≤ 126

instance (c : Char) : Decidable (plainChar c) := by
  unfold plainChar; infer_instance

/-- A text all of whose characters survive `goQuote` unescaped. -/
def plainText (s : GoStr) : Prop := ∀ c ∈ s, plainChar c

instance (s : GoStr) : Decidable (plainText s) := by
  unfold plainText; infer_instance

/-! ## IP address literals

Modelled from the spec: the external IPv4/IPv6 literal parser and printer
(`net/netip`, consumed at the boundary, §4.1: "fails ... if the IP text
does not parse as a valid IPv4/IPv6 literal").  IPv4 addresses print as
minimal dotted decimal and parse back exactly; IPv6 addresses print as
eight fixed-width hexadecimal groups (the real printer compresses zero
runs, which it also reparses; the only property the claims rely on is that
printing inverts into parsing, which holds of both). -/

/-- An IP address: four octets, or eight 16-bit groups. -/
inductive NetipAddr where
  | v4 (a b c d : Fin 256)
  | v6 (g0 g1 g2 g3 g4 g5 g6 g7 : Fin 65536)
deriving DecidableEq

/-- Whether the address is IPv4 (model of `netip.Addr.Is4`). -/
def NetipAddr.is4 : NetipAddr → Bool
  | .v4 _ _ _ _ => true
  | _ => false

/-- Model of `netip.Addr.String`. -/
def NetipAddr.str : NetipAddr → GoStr
  | .v4 a b c d =>
      natToDec a.val ++ '.' :: natToDec b.val ++ '.' :: natToDec c.val ++ '.' :: natToDec d.val
  | .v6 g0 g1 g2 g3 g4 g5 g6 g7 =>
      hex4 g0.val ++ ':' :: hex4 g1.val ++ ':' :: hex4 g2.val ++ ':' :: hex4 g3.val ++
      ':' :: hex4 g4.val ++ ':' :: hex4 g5.val ++ ':' :: hex4 g6.val ++ ':' :: hex4 g7.val

/-- Split a character list on a separator character (model of
`strings.Split`). -/
def splitOnChar (c : Char) : GoStr → List GoStr
  | [] => [[]]
  | x :: xs =>
    if x = c then [] :: splitOnChar c xs
    else
      match splitOnChar c xs with
      | [] => [[x]]
      | g :: rest => (x :: g) :: rest

/-- Parse one decimal IPv4 octet (one to three digits, value at most 255). -/
def parseDecOctet (s : GoStr) : Option (Fin 256) :=
  match s.mapM decVal with
  | none => none
  | some ds =>
    if ds.length = 0 ∨ 3 < ds.length then none
    else
      let v := ds.foldl (fun acc d => acc * 10 + d) 0
      if h2 : v < 256 then some ⟨v, h2⟩ else none

/-- Parse one hexadecimal IPv6 group (one to four hex digits). -/
def parseHexGroup (s : GoStr) : Option (Fin 65536) :=
  match s.mapM hexVal with
  | none => none
  | some ds =>
    if ds.length = 0 ∨ 4 < ds.length then none
    else
      let v := ds.foldl (fun acc d => acc * 16 + d) 0
      if h2 : v < 65536 then some ⟨v, h2⟩ else none

/-- Parse a dotted-decimal IPv4 literal. -/
def parseV4 (s : GoStr) : Option NetipAddr :=
  match splitOnChar '.' s with
  | [a, b, c, d] =>
    match parseDecOctet a, parseDecOctet b, parseDecOctet c, parseDecOctet d with
    | some a', some b', some c', some d' => some (.v4 a' b' c' d')
    | _, _, _, _ => none
  | _ => none

/-- Parse a colon-separated IPv6 literal of eight groups. -/
def parseV6 (s : GoStr) : Option NetipAddr :=
  match splitOnChar ':' s with
  | [g0, g1, g2, g3, g4, g5, g6, g7] =>
    match parseHexGroup g0, parseHexGroup g1, parseHexGroup g2, parseHexGroup g3,
          parseHexGroup g4, parseHexGroup g5, parseHexGroup g6, parseHexGroup g7 with
    | some a0, some a1, some a2, some a3, some a4, some a5, some a6, some a7 =>
        some (.v6 a0 a1 a2 a3 a4 a5 a6 a7)
    | _, _, _, _, _, _, _, _ => none
  | _ => none

/-- Model of `netip.ParseAddr`: a literal containing a colon is parsed as
IPv6, anything else as IPv4. -/
def parseAddr (s : GoStr) : Option NetipAddr :=
  if ':' ∈ s then parseV6 s else parseV4 s

/-! ## JSON values and Go dynamic values

The transport decodes JSON bodies into Go values; `arDNSRecord.Value` has
Go type `any`, so it can hold either a JSON-decoded value or a typed Go
struct stored into it by the adapter's own code.  JSON numbers are
modelled as integers (no claim exercises fractional numbers). -/

/-- A JSON value. -/
inductive JSONVal where
  | null
  | bool (b : Bool)
  | num (n : Int)
  | str (s : GoStr)
  | arr (es : List JSONVal)
  | obj (fs : List (GoStr × JSONVal))

mutual

/-- Decidable equality for JSON values (the derive handler does not support
this nested inductive). -/
def JSONVal.decEq : (a b : JSONVal) → Decidable (a = b)
  | .null, .null => isTrue rfl
  | .null, .bool _ => isFalse (fun h => nomatch h)
  | .null, .num _ => isFalse (fun h => nomatch h)
  | .null, .str _ => isFalse (fun h => nomatch h)
  | .null, .arr _ => isFalse (fun h => nomatch h)
  | .null, .obj _ => isFalse (fun h => nomatch h)
  | .bool _, .null => isFalse (fun h => nomatch h)
  | .bool a, .bool b =>
    if h : a = b then isTrue (by rw [h]) else isFalse (fun e => h (by injection e))
  | .bool _, .num _ => isFalse (fun h => nomatch h)
  | .bool _, .str _ => isFalse (fun h => nomatch h)
  | .bool _, .arr _ => isFalse (fun h => nomatch h)
  | .bool _, .obj _ => isFalse (fun h => nomatch h)
  | .num _, .null => isFalse (fun h => nomatch h)
  | .num _, .bool _ => isFalse (fun h => nomatch h)
  | .num a, .num b =>
    if h : a = b then isTrue (by rw [h]) else isFalse (fun e => h (by injection e))
  | .num _, .str _ => isFalse (fun h => nomatch h)
  | .num _, .arr _ => isFalse (fun h => nomatch h)
  | .num _, .obj _ => isFalse (fun h => nomatch h)
  | .str _, .null => isFalse (fun h => nomatch h)
  | .str _, .bool _ => isFalse (fun h => nomatch h)
  | .str _, .num _ => isFalse (fun h => nomatch h)
  | .str a, .str b =>
    if h : a = b then isTrue (by rw [h]) else isFalse (fun e => h (by injection e))
  | .str _, .arr _ => isFalse (fun h => nomatch h)
  | .str _, .obj _ => isFalse (fun h => nomatch h)
  | .arr _, .null => isFalse (fun h => nomatch h)
  | .arr _, .bool _ => isFalse (fun h => nomatch h)
  | .arr _, .num _ => isFalse (fun h => nomatch h)
  | .arr _, .str _ => isFalse (fun h => nomatch h)
  | .arr as, .arr bs =>
    match JSONVal.decEqList as bs with
    | isTrue h => isTrue (by rw [h])
    | isFalse h => isFalse (fun e => h (by injection e))
  | .arr _, .obj _ => isFalse (fun h => nomatch h)
  | .obj _, .null => isFalse (fun h => nomatch h)
  | .obj _, .bool _ => isFalse (fun h => nomatch h)
  | .obj _, .num _ => isFalse (fun h => nomatch h)
  | .obj _, .str _ => isFalse (fun h => nomatch h)
  | .obj _, .arr _ => isFalse (fun h => nomatch h)
  | .obj as, .obj bs =>
    match JSONVal.decEqFields as bs with
    | isTrue h => isTrue (by rw [h])
    | isFalse h => isFalse (fun e => h (by injection e))

/-- Decidable equality for lists of JSON values. -/
def JSONVal.decEqList : (as bs : List JSONVal) → Decidable (as = bs)
  | [], [] => isTrue rfl
  | [], _ :: _ => isFalse (fun h => nomatch h)
  | _ :: _, [] => isFalse (fun h => nomatch h)
  | a :: as, b :: bs =>
    match JSONVal.decEq a b with
    | isFalse h => isFalse (fun e => h (by injection e))
    | isTrue h1 =>
      match JSONVal.decEqList as bs with
      | isTrue h2 => isTrue (by rw [h1, h2])
      | isFalse h2 => isFalse (fun e => h2 (by injection e))

/-- Decidable equality for JSON object field lists. -/
def JSONVal.decEqFields : (as bs : List (GoStr × JSONVal)) → Decidable (as = bs)
  | [], [] => isTrue rfl
  | [], _ :: _ => isFalse (fun h => nomatch h)
  | _ :: _, [] => isFalse (fun h => nomatch h)
  | (k, v) :: as, (k2, v2) :: bs =>
    if hk : k = k2 then
      match JSONVal.decEq v v2 with
      | isFalse h => isFalse (fun e => by
          apply h
          have e1 : (k, v) = (k2, v2) := by injection e
          injection e1)
      | isTrue h1 =>
        match JSONVal.decEqFields as bs with
        | isTrue h2 => isTrue (by rw [hk, h1, h2])
        | isFalse h2 => isFalse (fun e => h2 (by injection e))
    else
      isFalse (fun e => by
        apply hk
        have e1 : (k, v) = (k2, v2) := by injection e
        injection e1)

end

instance : DecidableEq JSONVal := JSONVal.decEq

/-- The value structure for A and AAAA records (`ARecordValue`); the
provider API carries a slice of these for A/AAAA records. -/
structure ARecordValue where
  ip : GoStr
  port : Int := 0
  weight : Int := 0
  country : GoStr := []
deriving DecidableEq

/-- The value structure for TXT records (`TXTRecordValue`). -/
structure TXTRecordValue where
  text : GoStr
deriving DecidableEq

/-- The value structure for MX records (`MXRecordValue`). -/
structure MXRecordValue where
  host : GoStr
  priority : Nat
deriving DecidableEq

/-- The value structure for CNAME records (`CNAMERecordValue`). -/
structure CNAMERecordValue where
  host : GoStr
  hostHeader : GoStr := []
  port : Int := 0
deriving DecidableEq

/-- The value structure for SRV records (`SRVRecordValue`). -/
structure SRVRecordValue where
  target : GoStr
  port : Nat
  priority : Nat
  weight : Nat
deriving DecidableEq

/-- The value structure for CAA records (`CAARecordValue`). -/
structure CAARecordValue where
  value : GoStr
  tag : GoStr
deriving DecidableEq

/-- The value structure for NS records (`NSRecordValue`). -/
structure NSRecordValue where
  host : GoStr
deriving DecidableEq

/-- A Go `any` value as stored in `arDNSRecord.Value`: either a value
produced by JSON decoding (`json`), one of the typed value structs the
adapter assigns itself, or the untyped zero value `nil`. -/
inductive GoValue where
  | nilV
  | json (j : JSONVal)
  | aRec (v : ARecordValue)
  | aRecList (vs : List ARecordValue)
  | txtRec (v : TXTRecordValue)
  | mxRec (v : MXRecordValue)
  | cnameRec (v : CNAMERecordValue)
  | srvRec (v : SRVRecordValue)
  | caaRec (v : CAARecordValue)
  | nsRec (v : NSRecordValue)
deriving DecidableEq

/-- Go type assertion `value.(ARecordValue)`: succeeds only when the
dynamic type is exactly the struct; a JSON-decoded value is a
`map[string]interface framework` or `[]interface`, never the struct, so the
assertion fails (and the asserting code panics). -/
def GoValue.asARec : GoValue → Option ARecordValue
  | .aRec v => some v
  | _ => none

/-- Go type assertion `value.(TXTRecordValue)`. -/
def GoValue.asTXTRec : GoValue → Option TXTRecordValue
  | .txtRec v => some v
  | _ => none

/-- Go type assertion `value.(MXRecordValue)`. -/
def GoValue.asMXRec : GoValue → Option MXRecordValue
  | .mxRec v => some v
  | _ => none

/-- Go type assertion `value.(CNAMERecordValue)`. -/
def GoValue.asCNAMERec : GoValue → Option CNAMERecordValue
  | .cnameRec v => some v
  | _ => none

/-- Go type assertion `value.(SRVRecordValue)`. -/
def GoValue.asSRVRec : GoValue → Option SRVRecordValue
  | .srvRec v => some v
  | _ => none

/-- Go type assertion `value.(CAARecordValue)`. -/
def GoValue.asCAARec : GoValue → Option CAARecordValue
  | .caaRec v => some v
  | _ => none

/-- Go type assertion `value.(NSRecordValue)`. -/
def GoValue.asNSRec : GoValue → Option NSRecordValue
  | .nsRec v => some v
  | _ => none

/-- Go type assertion `value.(string)`: a JSON-decoded string does have
dynamic type `string`. -/
def GoValue.asString : GoValue → Option GoStr
  | .json (.str s) => some s
  | _ => none

/-- JSON encoding of an `ARecordValue` (fields `port`, `weight`, `country`
are `omitempty`). -/
def ARecordValue.toJSON (v : ARecordValue) : JSONVal :=
  .obj ([(gs "ip", JSONVal.str v.ip)]
    ++ (if v.port = 0 then [] else [(gs "port", JSONVal.num v.port)])
    ++ (if v.weight = 0 then [] else [(gs "weight", JSONVal.num v.weight)])
    ++ (if v.country = [] then [] else [(gs "country", JSONVal.str v.country)]))

/-- Model of `json.Marshal(existing.Value)` composed with parsing the
produced bytes back into a JSON value: the JSON form of a `GoValue`. -/
def GoValue.marshal : GoValue → JSONVal
  | .nilV => .null
  | .json j => j
  | .aRec v => v.toJSON
  | .aRecList vs => .arr (vs.map ARecordValue.toJSON)
  | .txtRec v => .obj [(gs "text", .str v.text)]
  | .mxRec v => .obj [(gs "host", .str v.host), (gs "priority", .num v.priority)]
  | .cnameRec v => .obj ([(gs "host", JSONVal.str v.host)]
      ++ (if v.hostHeader = [] then [] else [(gs "host_header", JSONVal.str v.hostHeader)])
      ++ (if v.port = 0 then [] else [(gs "port", JSONVal.num v.port)]))
  | .srvRec v => .obj [(gs "target", .str v.target), (gs "port", .num v.port),
      (gs "priority", .num v.priority), (gs "weight", .num v.weight)]
  | .caaRec v => .obj [(gs "value", .str v.value), (gs "tag", .str v.tag)]
  | .nsRec v => .obj [(gs "host", .str v.host)]

/-- Field lookup in a JSON object as `encoding/json` performs it: keys are
processed in order and a repeated key overwrites, so the last occurrence
wins. -/
def lookupField (fs : List (GoStr × JSONVal)) (k : GoStr) : Option JSONVal :=
  ((fs.filter (fun p => p.1 == k)).getLast?).map (·.2)

/-- Best-effort decoding of one JSON value into an `ARecordValue`, as
`encoding/json` does it: on a type mismatch the field (or the whole
element) keeps its zero value, an error is recorded, and decoding
continues.  Returns the decoded struct and whether an error occurred. -/
def decodeARecordValue (j : JSONVal) : ARecordValue × Bool :=
  match j with
  | .obj fs =>
    let ipr : GoStr × Bool :=
      match lookupField fs (gs "ip") with
      | none => ([], false)
      | some (.str s) => (s, false)
      | some .null => ([], false)
      | some _ => ([], true)
    let portr : Int × Bool :=
      match lookupField fs (gs "port") with
      | none => (0, false)
      | some (.num n) => (n, false)
      | some .null => (0, false)
      | some _ => (0, true)
    let weightr : Int × Bool :=
      match lookupField fs (gs "weight") with
      | none => (0, false)
      | some (.num n) => (n, false)
      | some .null => (0, false)
      | some _ => (0, true)
    let countryr : GoStr × Bool :=
      match lookupField fs (gs "country") with
      | none => ([], false)
      | some (.str s) => (s, false)
      | some .null => ([], false)
      | some _ => ([], true)
    (⟨ipr.1, portr.1, weightr.1, countryr.1⟩,
      ipr.2 || portr.2 || weightr.2 || countryr.2)
  | .null => (⟨[], 0, 0, []⟩, false)
  | _ => (⟨[], 0, 0, []⟩, true)

/-- Best-effort decoding of a JSON value into `[]ARecordValue`, as
`json.Unmarshal` does it: a non-array leaves the slice nil and reports an
error; an array is decoded element-wise, each mismatching element keeping
its zero value while decoding continues (Go's decoder saves the first
error but still fills the rest).  Returns the decoded list and whether an
error occurred. -/
def decodeARecordValues (j : JSONVal) : List ARecordValue × Bool :=
  match j with
  | .arr es =>
    let rs := es.map decodeARecordValue
    (rs.map (·.1), rs.any (·.2))
  | .null => ([], false)
  | _ => ([], true)

/-! ## The generic record model

Modelled from the spec: the external generic record contract (§3, §6),
"a tagged variant over record types {Address, CNAME, MX, NS, SRV, TXT,
CAA, generic-RR-fallback}, each carrying a name (relative to a zone), a
time-to-live, and type-specific fields", where "every variant exposes a
canonical (name, type, TTL, opaque-data-string) projection".  TTLs are Go
`time.Duration` values: integer nanoseconds. -/

/-- A generic (libdns) DNS record. -/
inductive Rec where
  | address (name : GoStr) (ttl : Int) (ip : NetipAddr)
  | cname (name : GoStr) (ttl : Int) (target : GoStr)
  | ns (name : GoStr) (ttl : Int) (target : GoStr)
  | mx (name : GoStr) (ttl : Int) (preference : Nat) (target : GoStr)
  | srv (name : GoStr) (ttl : Int) (priority weight port : Nat) (target : GoStr)
  | txt (name : GoStr) (ttl : Int) (text : GoStr)
  | caa (name : GoStr) (ttl : Int) (tag value : GoStr)
  | rr (name : GoStr) (ttl : Int) (typ : GoStr) (data : GoStr)
deriving DecidableEq

/-- The `Name` component of the canonical RR projection. -/
def Rec.rrName : Rec → GoStr
  | .address n _ _ => n
  | .cname n _ _ => n
  | .ns n _ _ => n
  | .mx n _ _ _ => n
  | .srv n _ _ _ _ _ => n
  | .txt n _ _ => n
  | .caa n _ _ _ => n
  | .rr n _ _ _ => n

/-- The `TTL` component of the canonical RR projection (nanoseconds). -/
def Rec.rrTTL : Rec → Int
  | .address _ t _ => t
  | .cname _ t _ => t
  | .ns _ t _ => t
  | .mx _ t _ _ => t
  | .srv _ t _ _ _ _ => t
  | .txt _ t _ => t
  | .caa _ t _ _ => t
  | .rr _ t _ _ => t

/-- The `Type` component of the canonical RR projection; an address record
reports `A` or `AAAA` according to its IP family. -/
def Rec.rrType : Rec → GoStr
  | .address _ _ ip => if ip.is4 then gs "A" else gs "AAAA"
  | .cname _ _ _ => gs "CNAME"
  | .ns _ _ _ => gs "NS"
  | .mx _ _ _ _ => gs "MX"
  | .srv _ _ _ _ _ _ => gs "SRV"
  | .txt _ _ _ => gs "TXT"
  | .caa _ _ _ _ => gs "CAA"
  | .rr _ _ t _ => t

/-- Decimal rendering of a natural number (Go `%d`). -/
def natRepr (n : Nat) : GoStr := (Nat.repr n).toList

/-- The opaque `Data` component of the canonical RR projection.  Only the
address variant's data (the IP literal) is ever consulted by the adapter. -/
def Rec.rrData : Rec → GoStr
  | .address _ _ ip => ip.str
  | .cname _ _ t => t
  | .ns _ _ t => t
  | .mx _ _ p t => natRepr p ++ ' ' :: t
  | .srv _ _ p w po t => natRepr p ++ ' ' :: natRepr w ++ ' ' :: natRepr po ++ ' ' :: t
  | .txt _ _ s => s
  | .caa _ _ tag v => tag ++ ' ' :: v
  | .rr _ _ _ d => d

/-- Modelled from the spec: the external name normalization helper
`libdns.AbsoluteName` ("absolute-from-relative", §6), as the libdns
library implements it: the empty name and the apex marker map to the zone,
a name without a trailing dot gets `.zone` appended, and with an empty
zone the name is merely stripped of surrounding dots. -/
def absoluteName (name zone : GoStr) : GoStr :=
  if zone = [] then strTrimDots name
  else if name = [] ∨ name = gs "@" then zone
  else if ¬ strHasSuf name (gs ".") then name ++ '.' :: zone
  else name

/-- Modelled from the spec: the external name normalization helper
`libdns.RelativeName` ("relative-from-absolute", §6), as the libdns
library implements it: strip one trailing dot, then one suffix occurrence
of the zone (itself stripped of its trailing dot), then one trailing dot. -/
def relativeName (fqdn zone : GoStr) : GoStr :=
  strTrimSuf (strTrimSuf (strTrimSuf fqdn (gs ".")) (strTrimSuf zone (gs "."))) (gs ".")

/-- Modelled from the spec: the generic "parse raw record data" routine of
the external record contract (§6, "a generic parser that can reconstruct a
typed variant from a raw (type, data-string) pair").  No claim depends on
its internal behavior; it is modelled as packaging its inputs unchanged. -/
def rrParse (name : GoStr) (ttl : Int) (typ : GoStr) (data : GoStr) : Except GoStr Rec :=
  .ok (.rr name ttl typ data)

/-! ## The provider record -/

/-- The IP filtering mode structure (`IPFilter`). -/
structure IPFilter where
  count : GoStr
  geoFilter : GoStr
  order : GoStr
deriving DecidableEq

/-- The provider-side DNS record (`arDNSRecord`). -/
structure ArDNSRecord where
  id : GoStr
  type : GoStr
  name : GoStr
  value : GoValue
  ttl : Int
  cloud : Bool
  isProtected : Bool
  upstreamHTTPS : GoStr
  ipFilterMode : Option IPFilter
deriving DecidableEq

/-- Build an `ArDNSRecord` carrying only the fields the adapter sets. -/
def mkArRecord (type name : GoStr) (value : GoValue) (ttl : Int) : ArDNSRecord :=
  ⟨[], type, name, value, ttl, false, false, [], none⟩

/-! ## The record codec -/

/-- `unwrapContent`: strip one layer of surrounding quotes, if the text
both starts and ends with a quote. -/
def unwrapContent (content : GoStr) : GoStr :=
  if strHasPre content (gs "\"") && strHasSuf content (gs "\"") then
    strTrimPre (strTrimSuf content (gs "\"")) (gs "\"")
  else content

/-- `wrapContent`: quote the text with `%q` unless it already starts or
ends with a quote. -/
def wrapContent (content : GoStr) : GoStr :=
  if !strHasPre content (gs "\"") && !strHasSuf content (gs "\"") then
    goQuote content
  else content

/-- Join a list of strings with single spaces (Go `strings.Join(vals, " ")`). -/
def joinSpace : List GoStr → GoStr
  | [] => []
  | [s] => s
  | s :: rest => s ++ ' ' :: joinSpace rest

mutual

/-- Serialize a JSON value to its textual form (the raw body text a JSON
response body consists of).  Strings are rendered with `goEscapeChar`,
matching Go's encoder on ASCII text. -/
def renderJSON : JSONVal → GoStr
  | .null => gs "null"
  | .bool true => gs "true"
  | .bool false => gs "false"
  | .num n => (Int.repr n).toList
  | .str s => '"' :: (s.map goEscapeChar).flatten ++ ['"']
  | .arr es => '[' :: renderJSONList es ++ [']']
  | .obj fs => Char.ofNat 123 :: renderJSONFields fs ++ [Char.ofNat 125]

/-- Serialize a list of JSON values, comma-separated. -/
def renderJSONList : List JSONVal → GoStr
  | [] => []
  | [e] => renderJSON e
  | e :: rest => renderJSON e ++ ',' :: renderJSONList rest

/-- Serialize JSON object fields, comma-separated. -/
def renderJSONFields : List (GoStr × JSONVal) → GoStr
  | [] => []
  | [(k, v)] => '"' :: k ++ '"' :: ':' :: renderJSON v
  | (k, v) :: rest => '"' :: k ++ '"' :: ':' :: renderJSON v ++ ',' :: renderJSONFields rest

end

/-- Modelled from the spec boundary: `json.Unmarshal` of a Go string's
bytes into `map[string]any` (the codec's fallback branch for unrecognized
types, §4.1).  Real JSON text parsing is external to this repository and no
claim depends on the fallback branch's reconstruction, so the model
conservatively reports a parse failure (the source ignores the error, and
the field map stays nil). -/
def jsonTextFields (_s : GoStr) : Option (List (GoStr × JSONVal)) := none

/-- Go `fmt.Sprintf("%v", v)` on one decoded field value, as used by the
codec's fallback branch. -/
def renderFieldVal (f : GoStr × JSONVal) : GoStr := renderJSON f.2

/-- Errors produced by the adapter and its transport. -/
inductive GoErr where
  | apiError (status : Nat) (rest : GoStr)
  | envelopeErrors (status : Nat) (errs : List GoStr)
  | jsonDecodeError
  | invalidIP (ip : GoStr)
  | parseWrapped (r : Rec) (e : GoErr)
  | transportFailure (s : GoStr)
deriving DecidableEq

/-- The outcome of running a piece of Go code that may return an error or
panic at run time. -/
inductive Outcome (α : Type) where
  | ok (a : α)
  | goError (e : GoErr)
  | crashed
deriving DecidableEq

/-- `int(rr.TTL.Seconds())`: nanoseconds to whole seconds, truncating
toward zero.  (Go computes this through a `float64`, which is exact for
every second count below 2^53 ns; the model uses exact arithmetic.) -/
def durSeconds (ns : Int) : Int := ns.tdiv 1000000000

/-- `arDNSRecord.toLibDNSRecord`: translate a provider record to a generic
record.  Faithful to the source: the per-type value extraction is a Go
type assertion on the `any`-typed `Value` field, which panics
(`Outcome.crashed`) when the dynamic type differs — in particular on every
JSON-decoded value. -/
def toLibDNSRecord (r : ArDNSRecord) (zone : GoStr) : Outcome Rec :=
  let name := relativeName r.name zone
  let ttl : Int := r.ttl * 1000000000
  if r.type == gs "A" || r.type == gs "AAAA" then
    match r.value.asARec with
    | none => .crashed
    | some v =>
      match parseAddr v.ip with
      | none => .goError (.invalidIP v.ip)
      | some addr => .ok (.address name ttl addr)
  else if r.type == gs "CAA" then
    match r.value.asCAARec with
    | none => .crashed
    | some v => .ok (.caa name ttl v.tag v.value)
  else if r.type == gs "CNAME" then
    match r.value.asCNAMERec with
    | none => .crashed
    | some v => .ok (.cname name ttl v.host)
  else if r.type == gs "MX" then
    match r.value.asMXRec with
    | none => .crashed
    | some v => .ok (.mx name ttl v.priority v.host)
  else if r.type == gs "NS" then
    match r.value.asNSRec with
    | none => .crashed
    | some v => .ok (.ns name ttl v.host)
  else if r.type == gs "SRV" then
    match r.value.asSRVRec with
    | none => .crashed
    | some v => .ok (.srv name ttl v.priority v.weight v.port v.target)
  else if r.type == gs "TXT" then
    match r.value.asTXTRec with
    | none => .crashed
    | some v => .ok (.txt name ttl (unwrapContent v.text))
  else
    match r.value.asString with
    | none => .crashed
    | some s =>
      match jsonTextFields s with
      | none => -- the unmarshal error is ignored; `fields` stays nil
        match rrParse name ttl r.type [] with
        | .ok rec => .ok rec
        | .error e => .goError (.transportFailure e)
      | some fields =>
        match rrParse name ttl r.type (joinSpace (fields.map renderFieldVal)) with
        | .ok rec => .ok rec
        | .error e => .goError (.transportFailure e)

/-- `arvancloudRecord`: translate a generic record to a provider record.
Faithful to the source: the `ID` is left empty, the name and type come
from the canonical projection, the TTL is converted to whole seconds, and
the value is the per-type struct — with no arm for the generic fallback
variant, whose value stays the untyped zero `nil`.  (The Go function also
returns an error value, which is always nil.) -/
def arvancloudRecord (r : Rec) : ArDNSRecord :=
  let base := mkArRecord r.rrType r.rrName .nilV (durSeconds r.rrTTL)
  match r with
  | .address _ _ ip => { base with value := .aRec ⟨ip.str, 0, 0, []⟩ }
  | .cname _ _ t => { base with value := .cnameRec ⟨t, [], 0⟩ }
  | .ns _ _ t => { base with value := .nsRec ⟨t⟩ }
  | .caa _ _ tag v => { base with value := .caaRec ⟨v, tag⟩ }
  | .mx _ _ p t => { base with value := .mxRec ⟨t, p⟩ }
  | .srv _ _ p w po t => { base with value := .srvRec ⟨t, po, p, w⟩ }
  | .txt _ _ text => { base with value := .txtRec ⟨wrapContent text⟩ }
  | .rr _ _ _ _ => base

/-! ## The transport client's response handling -/

/-- The provider's generic response envelope (`arResponse`); `data` holds
the raw JSON of the `data` field (`json.RawMessage`), `none` when the
field is absent. -/
structure ArResponse where
  data : Option JSONVal
  status : Bool
  errors : List GoStr
  message : GoStr
deriving DecidableEq

/-- Decode a JSON array of strings (Go `[]string`): `null` gives the empty
slice, any non-string element is a decode error. -/
def decodeStrList (j : JSONVal) : Option (List GoStr) :=
  match j with
  | .null => some []
  | .arr es => es.mapM (fun e => match e with | .str s => some s | _ => none)
  | _ => none

/-- Decode the response envelope from a JSON body (`json.Decode` into
`arResponse`): the body must be a JSON object (or `null`); a type mismatch
on any envelope field is a decode error. -/
def decodeEnvelope (j : JSONVal) : Option ArResponse :=
  match j with
  | .null => some ⟨none, false, [], []⟩
  | .obj fs =>
    let dataF := lookupField fs (gs "data")
    let statusF : Option Bool :=
      match lookupField fs (gs "status") with
      | none => some false
      | some (.bool b) => some b
      | some .null => some false
      | some _ => none
    let errorsF : Option (List GoStr) :=
      match lookupField fs (gs "errors") with
      | none => some []
      | some v => decodeStrList v
    let messageF : Option GoStr :=
      match lookupField fs (gs "message") with
      | none => some []
      | some (.str s) => some s
      | some .null => some []
      | some _ => none
    match statusF, errorsF, messageF with
    | some st, some errs, some msg => some ⟨dataF, st, errs, msg⟩
    | _, _, _ => none
  | _ => none

/-- `client.do`: run one HTTP exchange given the response's status code and
body (`none` when the body is not valid JSON), and a decoder for the
caller-shaped result read from the envelope's `data`.  Faithful to the
source order: the envelope is decoded from the body stream first; the
status check then reads the *remaining* stream for its error text, and the
decoder has already consumed the body, so that remainder is empty. -/
def clientDo {ρ : Type} (decResult : JSONVal → Option ρ)
    (status : Nat) (body : Option JSONVal) : Except GoErr (ArResponse × Option ρ) :=
  match body with
  | none => .error .jsonDecodeError
  | some j =>
    match decodeEnvelope j with
    | none => .error .jsonDecodeError
    | some env =>
      if 400 ≤ status then .error (.apiError status [])
      else if env.errors ≠ [] then .error (.envelopeErrors status env.errors)
      else
        match env.data with
        | none => .ok (env, none)
        | some d =>
          match decResult d with
          | none => .error .jsonDecodeError
          | some x => .ok (env, some x)

/-- The rendered text of an error (`err.Error()`), as far as the claims
consult it. -/
def errText : GoErr → GoStr
  | .apiError status rest => gs "API error " ++ natRepr status ++ ':' :: ' ' :: rest
  | .envelopeErrors status errs => gs "got errors: HTTP " ++ natRepr status ++ ':' :: ' ' :: joinSpace errs
  | .jsonDecodeError => gs "json decode error"
  | .invalidIP ip => gs "invalid IP address " ++ goQuote ip
  | .parseWrapped _ e => gs "parsing Arvancloud DNS record: " ++ errText e
  | .transportFailure s => s

/-! ## The provider facade

The facade's four operations are embedded over a transport oracle: a
record of pure functions giving the outcome of each REST call the client
can issue.  Every mutating call the facade performs is also recorded in a
trace, so the theorems can speak about which provider mutations a call
issues. -/

/-- One mutating transport call. -/
inductive Call where
  | create (zone : GoStr) (rec : ArDNSRecord)
  | delete (zone id : GoStr)
  | update (zone id : GoStr) (rec : ArDNSRecord)
deriving DecidableEq

/-- The transport oracle: outcomes of the client's REST calls
(`client.getRecords`, the POST of `createRecord`, `deleteRecord`,
`updateRecord`). -/
structure Oracle where
  getRecords : GoStr → Except GoErr (List ArDNSRecord)
  createRecord : GoStr → ArDNSRecord → Except GoErr ArDNSRecord
  deleteRecord : GoStr → GoStr → Except GoErr ArDNSRecord
  updateRecord : GoStr → GoStr → ArDNSRecord → Except GoErr ArDNSRecord

/-- `Provider.GetRecords` translation loop: translate every fetched
provider record, failing the whole call on the first record that fails
to translate. -/
def getRecordsLoop (zone : GoStr) : List ArDNSRecord → Outcome (List Rec)
  | [] => .ok []
  | ar :: ars =>
    match toLibDNSRecord ar zone with
    | .crashed => .crashed
    | .goError e => .goError e
    | .ok r =>
      match getRecordsLoop zone ars with
      | .ok rs => .ok (r :: rs)
      | other => other

/-- `Provider.GetRecords`: fetch all provider records for the zone and
translate each with the codec. -/
def GetRecords (o : Oracle) (zone : GoStr) : Outcome (List Rec) :=
  match o.getRecords zone with
  | .error e => .goError e
  | .ok ars => getRecordsLoop zone ars

/-- `Provider.AppendRecords` loop: for each input record, translate it to
provider form, issue a create call, translate the created record back, and
abort on the first failure (earlier creations are not rolled back). -/
def appendLoop (o : Oracle) (zone : GoStr) : List Rec → Outcome (List Rec) × List Call
  | [] => (.ok [], [])
  | r :: rs =>
    let arRec := arvancloudRecord r
    match o.createRecord zone arRec with
    | .error e => (.goError e, [.create zone arRec])
    | .ok result =>
      match toLibDNSRecord result zone with
      | .crashed => (.crashed, [.create zone arRec])
      | .goError e => (.goError (.parseWrapped r e), [.create zone arRec])
      | .ok lib =>
        match appendLoop o zone rs with
        | (.ok libs, tr) => (.ok (lib :: libs), .create zone arRec :: tr)
        | (other, tr) => (other, .create zone arRec :: tr)

/-- `Provider.AppendRecords`. -/
def AppendRecords (o : Oracle) (zone : GoStr) (records : List Rec) :
    Outcome (List Rec) × List Call :=
  appendLoop o zone records

/-- `Provider.findExistingRecord`, returning the index of the matching
record (the source returns `&records[i]`, a pointer into the slice).
Faithful to the source, including its quirks: the stored name is made
absolute only when it does not *contain* the zone as a substring and is
not `"@"` (the inner apex rewrite is therefore dead code), only the stored
name — not the search name — is stripped of a trailing dot, and the final
comparison is case-insensitive on name and type. -/
def findExistingRecordIdx (records : List ArDNSRecord) (name rType zone : GoStr) :
    Option Nat :=
  let searchName := absoluteName name zone
  records.findIdx? (fun r =>
    let recordName := r.name
    let recordName :=
      if !strContains recordName zone && recordName ≠ gs "@" then
        if recordName = gs "@" then zone else recordName ++ '.' :: zone
      else recordName
    let recordName := strTrimSuf recordName (gs ".")
    equalFold recordName searchName && equalFold r.type rType)

/-- `Provider.findExistingRecord` as the source exposes it: the matching
record itself, if any. -/
def findExistingRecord (records : List ArDNSRecord) (name rType zone : GoStr) :
    Option ArDNSRecord :=
  (findExistingRecordIdx records name rType zone).bind (records.get? ·)

/-- The delete-matching-records phase of `Provider.SetRecords`: for each
input record, locate an existing record of the same name and type and
delete it outright; the first delete failure aborts. -/
def setDeleteLoop (o : Oracle) (zone : GoStr) (existing : List ArDNSRecord) :
    List Rec → Option GoErr × List Call
  | [] => (none, [])
  | r :: rs =>
    match findExistingRecord existing r.rrName r.rrType zone with
    | none => setDeleteLoop o zone existing rs
    | some ex =>
      match o.deleteRecord zone ex.id with
      | .error e => (some e, [.delete zone ex.id])
      | .ok _ =>
        match setDeleteLoop o zone existing rs with
        | (res, tr) => (res, .delete zone ex.id :: tr)

/-- `Provider.SetRecords`: fetch the zone's records, delete every existing
record matching an input by name and type, then delegate to
`AppendRecords` to create the desired state. -/
def SetRecords (o : Oracle) (zone : GoStr) (records : List Rec) :
    Outcome (List Rec) × List Call :=
  match o.getRecords zone with
  | .error e => (.goError e, [])
  | .ok existing =>
    match setDeleteLoop o zone existing records with
    | (some e, tr) => (.goError e, tr)
    | (none, tr) =>
      match AppendRecords o zone records with
      | (res, tr2) => (res, tr ++ tr2)

/-- `Provider.DeleteRecords` loop.  Faithful to the source: the existing
records are fetched once; for each input with no match the input is
skipped; for A/AAAA inputs the existing record's value is re-marshalled
and best-effort-decoded into an IP-entry list with errors discarded,
entries whose IP equals the input's data are removed, and the record is
fully deleted (list emptied), updated in place (list reduced; the pointer
write `existing.Value = newVals` also updates the local slice), or the
input is skipped (nothing matched); for all other types the record is
deleted unconditionally.  The first transport or translation failure
aborts the whole call. -/
def deleteLoop (o : Oracle) (zone : GoStr) (existing : List ArDNSRecord) :
    List Rec → Outcome (List Rec) × List Call
  | [] => (.ok [], [])
  | r :: rs =>
    match findExistingRecordIdx existing r.rrName r.rrType zone with
    | none => deleteLoop o zone existing rs
    | some i =>
      match existing.get? i with
      | none => deleteLoop o zone existing rs
      | some ex =>
        if r.rrType == gs "A" || r.rrType == gs "AAAA" then
          let currentVals := (decodeARecordValues ex.value.marshal).1
          let newVals := currentVals.filter (fun v => !(v.ip == r.rrData))
          let found := currentVals.any (fun v => v.ip == r.rrData)
          if found then
            if newVals = [] then
              match o.deleteRecord zone ex.id with
              | .error e => (.goError e, [.delete zone ex.id])
              | .ok result =>
                match toLibDNSRecord result zone with
                | .crashed => (.crashed, [.delete zone ex.id])
                | .goError e => (.goError (.parseWrapped r e), [.delete zone ex.id])
                | .ok lib =>
                  match deleteLoop o zone existing rs with
                  | (.ok libs, tr) => (.ok (lib :: libs), .delete zone ex.id :: tr)
                  | (other, tr) => (other, .delete zone ex.id :: tr)
            else
              let ex2 := { ex with value := .aRecList newVals }
              let existing2 := existing.set i ex2
              match o.updateRecord zone ex.id ex2 with
              | .error e => (.goError e, [.update zone ex.id ex2])
              | .ok result =>
                match toLibDNSRecord result zone with
                | .crashed => (.crashed, [.update zone ex.id ex2])
                | .goError e => (.goError (.parseWrapped r e), [.update zone ex.id ex2])
                | .ok lib =>
                  match deleteLoop o zone existing2 rs with
                  | (.ok libs, tr) => (.ok (lib :: libs), .update zone ex.id ex2 :: tr)
                  | (other, tr) => (other, .update zone ex.id ex2 :: tr)
          else deleteLoop o zone existing rs
        else
          match o.deleteRecord zone ex.id with
          | .error e => (.goError e, [.delete zone ex.id])
          | .ok result =>
            match toLibDNSRecord result zone with
            | .crashed => (.crashed, [.delete zone ex.id])
            | .goError e => (.goError (.parseWrapped r e), [.delete zone ex.id])
            | .ok lib =>
              match deleteLoop o zone existing rs with
              | (.ok libs, tr) => (.ok (lib :: libs), .delete zone ex.id :: tr)
              | (other, tr) => (other, .delete zone ex.id :: tr)

/-- `Provider.DeleteRecords`. -/
def DeleteRecords (o : Oracle) (zone : GoStr) (records : List Rec) :
    Outcome (List Rec) × List Call :=
  match o.getRecords zone with
  | .error e => (.goError e, [])
  | .ok existing => deleteLoop o zone existing records

/-! ## Specification-shaped reconciliation (for the refinement claim)

The following definitions follow the spec's words for `SetRecords`
(§4.4 "Set"): compute the identifiers of the existing records matched by
some input (by name and type), delete them all outright in input order
aborting on the first failure, then delegate to Append.  The refinement
theorem proves the source-embedded `SetRecords` equal to this. -/

/-- Issue a delete for each identifier, stopping at the first failure. -/
def runDeletes (o : Oracle) (zone : GoStr) : List GoStr → Option GoErr × List Call
  | [] => (none, [])
  | i :: ids =>
    match o.deleteRecord zone i with
    | .error e => (some e, [.delete zone i])
    | .ok _ =>
      match runDeletes o zone ids with
      | (res, tr) => (res, .delete zone i :: tr)

/-- The identifiers of existing provider records matched by some input
record, sharing its name and type, in input order. -/
def matchedIds (existing : List ArDNSRecord) (zone : GoStr) (records : List Rec) :
    List GoStr :=
  records.filterMap (fun r => (findExistingRecord existing r.rrName r.rrType zone).map (·.id))

/-- The spec's description of `SetRecords`: delete every matched existing
record outright (no merging of array values), then delegate to Append; any
failure aborts the whole call with an error and no records. -/
def setRecordsSpec (o : Oracle) (zone : GoStr) (records : List Rec) :
    Outcome (List Rec) × List Call :=
  match o.getRecords zone with
  | .error e => (.goError e, [])
  | .ok existing =>
    match runDeletes o zone (matchedIds existing zone records) with
    | (some e, tr) => (.goError e, tr)
    | (none, tr) =>
      match AppendRecords o zone records with
      | (res, tr2) => (res, tr ++ tr2)

/-! ## Sample data for counterexamples and witnesses -/

/-- A provider A record as the transport delivers it: the value is the
JSON-decoded array of two IP entries. -/
def sampleProviderA2 : ArDNSRecord :=
  { mkArRecord (gs "A") (gs "test") (.json (.arr
      [.obj [(gs "ip", .str (gs "1.2.3.4"))],
       .obj [(gs "ip", .str (gs "5.6.7.8"))]])) 120 with id := gs "recA" }

/-- A provider A record as the transport delivers it: the value is the
JSON-decoded single IP-entry object. -/
def sampleProviderA1 : ArDNSRecord :=
  { mkArRecord (gs "A") (gs "test") (.json (.obj [(gs "ip", .str (gs "1.2.3.4"))])) 120 with
      id := gs "recB" }

/-- A provider record stored under the apex marker. -/
def sampleApexRecord : ArDNSRecord :=
  { mkArRecord (gs "A") (gs "@") (.json (.obj [(gs "ip", .str (gs "1.2.3.4"))])) 300 with
      id := gs "recC" }

/-- A provider record stored under a fully-qualified dotted name. -/
def sampleDottedRecord : ArDNSRecord :=
  { mkArRecord (gs "A") (gs "www.example.com.")
      (.json (.obj [(gs "ip", .str (gs "1.2.3.4"))])) 300 with id := gs "recD" }

/-- A well-formed provider TXT record (typed value), used as a benign
transport reply for mutating calls in witness oracles. -/
def sampleTxtReply : ArDNSRecord :=
  { mkArRecord (gs "TXT") (gs "test") (.txtRec ⟨gs "x"⟩) 60 with id := gs "recT" }

/-- An oracle whose zone listing returns the two-entry A record and whose
mutations all succeed, replying with the benign TXT record. -/
def sampleOracle : Oracle :=
  ⟨fun _ => .ok [sampleProviderA2],
   fun _ _ => .ok sampleTxtReply,
   fun _ _ => .ok sampleTxtReply,
   fun _ _ _ => .ok sampleTxtReply⟩

/-- A provider A record whose value payload is a JSON array with one
garbage element and one genuine IP entry: `json.Unmarshal` reports an
error for it yet still recovers the genuine entry (best-effort decoding). -/
def samplePartialA : ArDNSRecord :=
  { mkArRecord (gs "A") (gs "test") (.json (.arr
      [.str (gs "junk"), .obj [(gs "ip", .str (gs "1.1.1.1"))]])) 60 with id := gs "recP" }

/-- A provider A record whose value payload is not a JSON array at all, so
decoding it as an IP-entry list recovers nothing and reports an error. -/
def sampleBadValueA : ArDNSRecord :=
  { mkArRecord (gs "A") (gs "test") (.json (.str (gs "oops"))) 60 with id := gs "recQ" }

/-- An oracle listing only the partially-decodable A record. -/
def samplePartialOracle : Oracle :=
  ⟨fun _ => .ok [samplePartialA],
   fun _ _ => .ok sampleTxtReply,
   fun _ _ => .ok sampleTxtReply,
   fun _ _ _ => .ok sampleTxtReply⟩

/-- A generic address input naming `test` / `1.1.1.1` (one minute TTL). -/
def sampleAddrInput : Rec :=
  .address (gs "test") 60000000000 (.v4 1 1 1 1)

/-- The JSON body of a provider error response. -/
def sampleErrorBody : JSONVal :=
  .obj [(gs "status", .bool false), (gs "message", .str (gs "boom"))]

deriving instance DecidableEq for Except

/-- The clean IP-entry list carried by `sampleProviderA2`. -/
def sampleValsA2 : List ARecordValue :=
  [⟨gs "1.2.3.4", 0, 0, []⟩, ⟨gs "5.6.7.8", 0, 0, []⟩]

/-- A generic address input naming `test` / `1.2.3.4`. -/
def sampleAddrInput2 : Rec :=
  .address (gs "test") 60000000000 (.v4 1 2 3 4)

/-- A provider A record holding exactly one IP entry. -/
def sampleOneIPA : ArDNSRecord :=
  { mkArRecord (gs "A") (gs "test") (.json (.arr
      [.obj [(gs "ip", .str (gs "1.2.3.4"))]])) 60 with id := gs "recE" }

/-- An oracle listing only the one-entry A record. -/
def sampleOneIPOracle : Oracle :=
  ⟨fun _ => .ok [sampleOneIPA],
   fun _ _ => .ok sampleTxtReply,
   fun _ _ => .ok sampleTxtReply,
   fun _ _ _ => .ok sampleTxtReply⟩

/-- An oracle whose zone listing holds no record matching the sample
address input (a TXT record only). -/
def sampleNoMatchOracle : Oracle :=
  ⟨fun _ => .ok [sampleTxtReply],
   fun _ _ => .ok sampleTxtReply,
   fun _ _ => .ok sampleTxtReply,
   fun _ _ _ => .ok sampleTxtReply⟩

/-- An oracle listing only the A record with the undecodable value. -/
def sampleBadOracle : Oracle :=
  ⟨fun _ => .ok [sampleBadValueA],
   fun _ _ => .ok sampleTxtReply,
   fun _ _ => .ok sampleTxtReply,
   fun _ _ _ => .ok sampleTxtReply⟩

/-- A generic TXT input with plain text. -/
def sampleTxtInput : Rec := .txt (gs "note") 120000000000 (gs "hello world")

/-- A generic TXT input whose text is a single quote character — the text
the round-trip claims fail on. -/
def sampleQuoteTxtInput : Rec := .txt (gs "note") 120000000000 (gs "\"")

/-! ## Lemmas about the TXT quote helpers -/

theorem gs_quote : gs "\"" = ['"'] := rfl

theorem strHasPre_quote_cons (rest : GoStr) : strHasPre ('"' :: rest) (gs "\"") = true := by
  rw [gs_quote]
  simp [strHasPre, List.isPrefixOf]

theorem strHasSuf_quote_append (s : GoStr) : strHasSuf (s ++ ['"']) (gs "\"") = true := by
  rw [gs_quote]
  simp [strHasSuf, List.isSuffixOf, List.isPrefixOf]

theorem goQuote_startsQuote (s : GoStr) : strHasPre (goQuote s) (gs "\"") = true := by
  simpa [goQuote] using strHasPre_quote_cons ((s.map goEscapeChar).flatten ++ ['"'])

theorem strHasPre_quote_false {s : GoStr} (h : '"' ∉ s) : strHasPre s (gs "\"") = false := by
  rw [gs_quote]
  cases s with
  | nil => rfl
  | cons c cs =>
    have : c ≠ '"' := fun e => h (by simp [e])
    simp [strHasPre, List.isPrefixOf, this, Ne.symm this]

theorem strHasSuf_quote_false {s : GoStr} (h : '"' ∉ s) : strHasSuf s (gs "\"") = false := by
  rw [gs_quote]
  rcases e : s.reverse with _ | ⟨c, cs⟩
  · have : s = [] := by
      have := congrArg List.reverse e
      simpa using this
    subst this
    rfl
  · have hc : c ∈ s := by
      have : c ∈ s.reverse := by simp [e]
      simpa using this
    have hne : c ≠ '"' := fun he => h (he ▸ hc)
    simp [strHasSuf, List.isSuffixOf, e, List.isPrefixOf, hne, Ne.symm hne]

theorem goEscapeChar_plain {c : Char} (h : plainChar c) : goEscapeChar c = [c] := by
  obtain ⟨h1, h2, h3, h4⟩ := h
  have hn : c ≠ '\n' := by
    intro e; rw [e] at h3; simp at h3
  have ht : c ≠ '\t' := by
    intro e; rw [e] at h3; simp at h3
  have hr : c ≠ '\r' := by
    intro e; rw [e] at h3; simp at h3
  simp [goEscapeChar, h1, h2, hn, ht, hr, h3, h4]

theorem flatten_escape_plain {s : GoStr} (h : plainText s) :
    (s.map goEscapeChar).flatten = s := by
  induction s with
  | nil => rfl
  | cons c cs ih =>
    have hc : plainChar c := h c (by simp)
    have hcs : plainText cs := fun x hx => h x (by simp [hx])
    simp [goEscapeChar_plain hc, ih hcs]

theorem goQuote_plain {s : GoStr} (h : plainText s) :
    goQuote s = '"' :: s ++ ['"'] := by
  simp [goQuote, flatten_escape_plain h]

theorem plainText_no_quote {s : GoStr} (h : plainText s) : '"' ∉ s := by
  intro hm
  exact absurd rfl (h '"' hm).1

theorem wrapContent_plain {s : GoStr} (h : plainText s) :
    wrapContent s = '"' :: s ++ ['"'] := by
  have hq := plainText_no_quote h
  rw [wrapContent, strHasPre_quote_false hq, strHasSuf_quote_false hq]
  simpa using goQuote_plain h

theorem strTrimSuf_append_quote (s : GoStr) :
    strTrimSuf (s ++ ['"']) (gs "\"") = s := by
  rw [gs_quote, strTrimSuf]
  have hs : List.isSuffixOf ['"'] (s ++ ['"']) = true := by
    simp [List.isSuffixOf, List.isPrefixOf]
  rw [hs]
  simp

theorem strTrimPre_quote_cons (s : GoStr) :
    strTrimPre ('"' :: s) (gs "\"") = s := by
  rw [gs_quote, strTrimPre]
  have hp : List.isPrefixOf ['"'] ('"' :: s) = true := by
    simp [List.isPrefixOf]
  rw [hp]
  simp

theorem unwrapContent_quote_wrap (s : GoStr) :
    unwrapContent ('"' :: s ++ ['"']) = s := by
  rw [unwrapContent]
  have hp : strHasPre ('"' :: s ++ ['"']) (gs "\"") = true := strHasPre_quote_cons _
  have hsuf : strHasSuf ('"' :: s ++ ['"']) (gs "\"") = true := by
    have := strHasSuf_quote_append ('"' :: s)
    simpa using this
  rw [hp, hsuf]
  have e2 : strTrimSuf ('"' :: s ++ ['"']) (gs "\"") = '"' :: s := by
    have := strTrimSuf_append_quote ('"' :: s)
    simpa using this
  simp only [Bool.and_self, if_true]
  rw [e2, strTrimPre_quote_cons]

/-- C7 (counterexample): the claim "unwrapContent(wrapContent(s)) equals s
for every string s" is false at `s = "\""`: wrapping is a no-op there (the
text already starts with a quote), and unwrapping then strips the lone
quote, yielding the empty string. -/
theorem claim7_counterexample_unwrap_wrap :
    unwrapContent (wrapContent (gs "\"")) ≠ gs "\"" := by decide

/-- C7 (amended): the TXT quote helpers satisfy: wrapping is idempotent;
unwrapping is idempotent on already-unwrapped text (text not both starting
and ending with a quote); unwrapping inverts wrapping on text whose
characters the quoter passes through unescaped (printable ASCII without
quote or backslash); and wrapping already-quoted text is a no-op. -/
theorem claim7_quote_helpers_amended :
    (∀ s : GoStr, wrapContent (wrapContent s) = wrapContent s) ∧
    (∀ s : GoStr, (strHasPre s (gs "\"") && strHasSuf s (gs "\"")) = false →
      unwrapContent (unwrapContent s) = unwrapContent s) ∧
    (∀ s : GoStr, plainText s → unwrapContent (wrapContent s) = s) ∧
    (∀ s : GoStr, (strHasPre s (gs "\"") && strHasSuf s (gs "\"")) = true →
      wrapContent s = s) := by
  refine ⟨?_, ?_, ?_, ?_⟩
  · intro s
    by_cases hc : (!strHasPre s (gs "\"") && !strHasSuf s (gs "\"")) = true
    · have h1 : wrapContent s = goQuote s := by
        simp only [wrapContent]
        rw [if_pos hc]
      rw [h1]
      simp only [wrapContent]
      rw [goQuote_startsQuote]
      simp
    · have h1 : wrapContent s = s := by
        simp only [wrapContent]
        rw [if_neg hc]
      rw [h1]
      exact h1
  · intro s hc
    have h1 : unwrapContent s = s := by
      simp only [unwrapContent]
      rw [hc]
      simp
    rw [h1]
    exact h1
  · intro s h
    rw [wrapContent_plain h]
    exact unwrapContent_quote_wrap s
  · intro s hc
    have hpre : strHasPre s (gs "\"") = true := (Bool.and_eq_true_iff.mp hc).1
    simp only [wrapContent]
    rw [hpre]
    simp

/-- C7 witness: the amended properties at concrete inputs. -/
theorem claim7_witness :
    wrapContent (wrapContent (gs "hi")) = wrapContent (gs "hi") ∧
    unwrapContent (unwrapContent (gs "abc")) = unwrapContent (gs "abc") ∧
    unwrapContent (wrapContent (gs "hello world")) = gs "hello world" ∧
    wrapContent (gs "\"quoted\"") = gs "\"quoted\"" :=
  ⟨claim7_quote_helpers_amended.1 (gs "hi"),
   claim7_quote_helpers_amended.2.1 (gs "abc") (by decide),
   claim7_quote_helpers_amended.2.2.1 (gs "hello world") (by decide),
   claim7_quote_helpers_amended.2.2.2 (gs "\"quoted\"") (by decide)⟩

/-- C1 (code bug): listing a zone whose provider record set holds an A
record with a two-entry IP array does not return two generic address
records.  `GetRecords` maps each provider record through
`toLibDNSRecord`, which performs the unchecked type assertion
`r.Value.(ARecordValue)` on the JSON-decoded array value and panics; no
code anywhere splits the array into per-IP records. -/
theorem claim1_list_does_not_split_address_arrays :
    GetRecords sampleOracle (gs "example.com") = Outcome.crashed := by decide

/-- C2 (code bug): on a provider A record whose value payload is in the
form produced by the transport's JSON decoding (a decoded JSON object),
`toLibDNSRecord` is not total: the unchecked type assertion
`r.Value.(ARecordValue)` fails (the dynamic type is a decoded map, not the
struct) and the code panics instead of returning a record or a
malformed-address error. -/
theorem claim2_toLibDNSRecord_crashes_on_decoded_payload :
    toLibDNSRecord sampleProviderA1 (gs "example.com.") = Outcome.crashed := by decide

/-- C3 (code bug): the locator misses names the claim says it matches.  A
stored record named `@` is never rewritten to the zone name (the rewrite
branch is dead code: it sits under a condition that already excludes `@`),
so a search for the zone apex finds nothing; and only the stored name —
not the search name — is stripped of its trailing dot, so under a
dot-terminated zone a fully-qualified stored name fails to match the
relative search that the claim says is equal to it. -/
theorem claim3_find_misses_apex_and_dotted_names :
    findExistingRecord [sampleApexRecord] (gs "@") (gs "A") (gs "example.com") = none ∧
    findExistingRecord [sampleDottedRecord] (gs "www") (gs "A") (gs "example.com.") = none := by
  decide

/-- C8 (code bug): an HTTP status of 500 with a well-formed envelope body
does yield an error, but the error text is `API error 500: ` with nothing
after the colon — the body was already consumed by the envelope decoder
when `io.ReadAll` runs, so the raw response body (which is non-empty) is
not contained in the error text. -/
theorem claim8_api_error_text_lacks_body :
    clientDo (fun j => some j) 500 (some sampleErrorBody) =
      Except.error (GoErr.apiError 500 []) ∧
    errText (GoErr.apiError 500 []) = gs "API error 500: " ∧
    renderJSON sampleErrorBody ≠ [] ∧
    strContains (errText (GoErr.apiError 500 [])) (renderJSON sampleErrorBody) = false := by
  decide

/-- An input with no matching existing record is skipped by the delete
loop: no call, no output, no error contribution. -/
theorem deleteLoop_skip_of_no_match (o : Oracle) (zone : GoStr)
    (existing : List ArDNSRecord) (r : Rec) (rs : List Rec)
    (h : findExistingRecordIdx existing r.rrName r.rrType zone = none) :
    deleteLoop o zone existing (r :: rs) = deleteLoop o zone existing rs := by
  simp only [deleteLoop, h]

/-- C9 (confirmed): a delete input with no matching existing provider
record is skipped — the loop continues unchanged, issuing no transport
call for it and contributing nothing to the returned list; consequently a
whole `DeleteRecords` call none of whose inputs match (as on the second of
two successive deletes of the same record) succeeds with no deletions, no
mutating calls, and no error. -/
theorem claim9_delete_skips_unmatched :
    (∀ (o : Oracle) (zone : GoStr) (existing : List ArDNSRecord) (r : Rec) (rs : List Rec),
      findExistingRecordIdx existing r.rrName r.rrType zone = none →
      deleteLoop o zone existing (r :: rs) = deleteLoop o zone existing rs) ∧
    (∀ (o : Oracle) (zone : GoStr) (records : List Rec) (existing : List ArDNSRecord),
      o.getRecords zone = .ok existing →
      (∀ r ∈ records, findExistingRecordIdx existing r.rrName r.rrType zone = none) →
      DeleteRecords o zone records = (.ok [], [])) := by
  refine ⟨deleteLoop_skip_of_no_match, ?_⟩
  intro o zone records existing hget hall
  simp only [DeleteRecords, hget]
  induction records with
  | nil => rfl
  | cons r rs ih =>
    rw [deleteLoop_skip_of_no_match o zone existing r rs (hall r (by simp))]
    exact ih (fun x hx => hall x (by simp [hx]))

/-- C9 witness: deleting an A record from a zone that only holds a TXT
record skips the input and succeeds with nothing deleted. -/
theorem claim9_witness :
    deleteLoop sampleNoMatchOracle (gs "example.com") [sampleTxtReply] [sampleAddrInput] =
      deleteLoop sampleNoMatchOracle (gs "example.com") [sampleTxtReply] [] ∧
    DeleteRecords sampleNoMatchOracle (gs "example.com") [sampleAddrInput] = (.ok [], []) :=
  ⟨claim9_delete_skips_unmatched.1 sampleNoMatchOracle (gs "example.com")
      [sampleTxtReply] sampleAddrInput [] (by decide),
   claim9_delete_skips_unmatched.2 sampleNoMatchOracle (gs "example.com")
      [sampleAddrInput] [sampleTxtReply] (by decide) (by decide)⟩

/-- C10 (counterexample): the claim says a matching A record whose value
payload cannot be unmarshalled into an IP-entry list is silently skipped.
But Go's decoder fills the slice best-effort even when it reports an
error: for the payload `["junk", {"ip":"1.1.1.1"}]` the decode errs (and
the error is discarded) yet recovers the genuine entry, so deleting
`1.1.1.1` issues an update (carrying the zero-valued residue entry) and
reports a deletion — not a skip. -/
theorem claim10_counterexample_partial_decode :
    (decodeARecordValues samplePartialA.value.marshal).2 = true ∧
    DeleteRecords samplePartialOracle (gs "example.com") [sampleAddrInput] =
      (Outcome.ok [Rec.txt (gs "test") 60000000000 (gs "x")],
       [Call.update (gs "example.com") (gs "recP")
         { samplePartialA with value := .aRecList [⟨[], 0, 0, []⟩] }]) := by decide

/-- C10 (amended): when the matching A/AAAA record's value payload fails
to decode *and no IP entries are recovered* (in particular when the
payload is not a JSON array), the decode errors are discarded and the
input is silently skipped exactly as if no IP entry matched: no transport
mutation, nothing appended, no error.  (When the decoder recovers entries
despite the error, the recovered entries are processed normally.) -/
theorem claim10_skip_amended (o : Oracle) (zone : GoStr)
    (existing : List ArDNSRecord) (r : Rec) (rs : List Rec) (i : Nat) (ex : ArDNSRecord)
    (hfind : findExistingRecordIdx existing r.rrName r.rrType zone = some i)
    (hex : existing.get? i = some ex)
    (htype : (r.rrType == gs "A" || r.rrType == gs "AAAA") = true)
    (hdec : decodeARecordValues ex.value.marshal = ([], true)) :
    deleteLoop o zone existing (r :: rs) = deleteLoop o zone existing rs := by
  simp only [deleteLoop, hfind, hex, htype, hdec]
  simp

/-- C10 witness: the amended skip at a concrete undecodable payload. -/
theorem claim10_witness :
    deleteLoop sampleBadOracle (gs "example.com") [sampleBadValueA] [sampleAddrInput] =
      deleteLoop sampleBadOracle (gs "example.com") [sampleBadValueA] [] :=
  claim10_skip_amended sampleBadOracle (gs "example.com") [sampleBadValueA]
    sampleAddrInput [] 0 sampleBadValueA (by decide) (by decide) (by decide) (by decide)

/-- The delete phase of `SetRecords` equals deleting exactly the matched
identifiers, in input order, stopping at the first failure. -/
theorem setDeleteLoop_eq_runDeletes (o : Oracle) (zone : GoStr)
    (existing : List ArDNSRecord) (rs : List Rec) :
    setDeleteLoop o zone existing rs =
      runDeletes o zone (matchedIds existing zone rs) := by
  induction rs with
  | nil => rfl
  | cons r rs ih =>
    simp only [setDeleteLoop, matchedIds, List.filterMap_cons]
    cases hf : findExistingRecord existing r.rrName r.rrType zone with
    | none =>
      simp only [Option.map_none']
      simpa [matchedIds] using ih
    | some ex =>
      simp only [Option.map_some']
      simp only [runDeletes]
      cases o.deleteRecord zone ex.id with
      | error e => rfl
      | ok _ =>
        rw [ih]
        rfl

/-- C4 (confirmed): `SetRecords` equals the spec-shaped reconciliation:
fetch the zone's records; for each input with a matching existing record
by name and type, delete that record outright (no merging of array
values); after processing all inputs, delegate to `AppendRecords`; any
delete or create failure aborts the whole call with an error outcome,
which carries no records. -/
theorem claim4_setRecords_deletes_then_appends (o : Oracle) (zone : GoStr)
    (records : List Rec) :
    SetRecords o zone records = setRecordsSpec o zone records := by
  simp only [SetRecords, setRecordsSpec]
  cases hg : o.getRecords zone with
  | error e => rfl
  | ok existing => simp only [setDeleteLoop_eq_runDeletes]

/-- C5 (confirmed): for an A/AAAA delete input whose matching existing
record carries a cleanly-decoded IP-entry list `vals`: if no entry's IP
equals the input's data, the input is skipped (no call, nothing reported,
no error); if entries match and removing them empties the list, the first
call issued is a full delete of the record; otherwise the first call
issued is an update carrying exactly the reduced list (so an update never
carries an empty list). -/
theorem claim5_delete_address_array_surgery (o : Oracle) (zone : GoStr)
    (existing : List ArDNSRecord) (r : Rec) (rs : List Rec) (i : Nat) (ex : ArDNSRecord)
    (vals : List ARecordValue)
    (hfind : findExistingRecordIdx existing r.rrName r.rrType zone = some i)
    (hex : existing.get? i = some ex)
    (htype : (r.rrType == gs "A" || r.rrType == gs "AAAA") = true)
    (hdec : decodeARecordValues ex.value.marshal = (vals, false)) :
    ((∀ v ∈ vals, v.ip ≠ r.rrData) →
      deleteLoop o zone existing (r :: rs) = deleteLoop o zone existing rs) ∧
    ((∃ v ∈ vals, v.ip = r.rrData) →
      vals.filter (fun v => !(v.ip == r.rrData)) = [] →
      (deleteLoop o zone existing (r :: rs)).2.head? = some (Call.delete zone ex.id)) ∧
    ((∃ v ∈ vals, v.ip = r.rrData) →
      vals.filter (fun v => !(v.ip == r.rrData)) ≠ [] →
      (deleteLoop o zone existing (r :: rs)).2.head? =
        some (Call.update zone ex.id
          { ex with value := .aRecList (vals.filter (fun v => !(v.ip == r.rrData))) })) := by
  refine ⟨?_, ?_, ?_⟩
  · intro hnone
    have hfound : vals.any (fun v => v.ip == r.rrData) = false := by
      rw [List.any_eq_false]
      intro v hv
      simpa using hnone v hv
    simp only [deleteLoop, hfind, hex, htype, hdec, hfound]
    simp
  · intro hsome hempty
    have hfound : vals.any (fun v => v.ip == r.rrData) = true := by
      rw [List.any_eq_true]
      obtain ⟨v, hv, he⟩ := hsome
      exact ⟨v, hv, by simpa using he⟩
    simp only [deleteLoop, hfind, hex, htype, hdec, hfound, hempty, eq_self_iff_true, if_true]
    split <;> (try split) <;> (try split) <;> simp
  · intro hsome hne
    have hfound : vals.any (fun v => v.ip == r.rrData) = true := by
      rw [List.any_eq_true]
      obtain ⟨v, hv, he⟩ := hsome
      exact ⟨v, hv, by simpa using he⟩
    simp only [deleteLoop, hfind, hex, htype, hdec, hfound, eq_self_iff_true, if_true]
    rw [if_neg hne]
    split <;> (try split) <;> (try split) <;> simp

/-- C5 witness: deleting `1.2.3.4` from the existing two-entry A record
issues an update carrying exactly the remaining entry. -/
theorem claim5_witness :
    (deleteLoop sampleOracle (gs "example.com") [sampleProviderA2] [sampleAddrInput2]).2.head? =
      some (Call.update (gs "example.com") sampleProviderA2.id
        { sampleProviderA2 with
            value := .aRecList (sampleValsA2.filter (fun v => !(v.ip == sampleAddrInput2.rrData))) }) :=
  (claim5_delete_address_array_surgery sampleOracle (gs "example.com") [sampleProviderA2]
      sampleAddrInput2 [] 0 sampleProviderA2 sampleValsA2
      (by decide) (by decide) (by decide) (by decide)).2.2
    (by decide) (by decide)

/-! ## Printing and parsing of IP literals invert each other -/

set_option maxRecDepth 8192 in
theorem parseDecOctet_natToDec : ∀ n : Fin 256, parseDecOctet (natToDec n.val) = some n := by
  decide

set_option maxRecDepth 8192 in
theorem natToDec_no_sep : ∀ n : Fin 256, '.' ∉ natToDec n.val ∧ ':' ∉ natToDec n.val := by
  decide

theorem hexVal_hexDigit : ∀ k : Fin 16, hexVal (hexDigit k.val) = some k.val := by decide

theorem hexDigit_ne_colon : ∀ k : Fin 16, hexDigit k.val ≠ ':' := by decide

theorem splitOnChar_no_sep {c : Char} {w : GoStr} (h : c ∉ w) : splitOnChar c w = [w] := by
  induction w with
  | nil => rfl
  | cons x xs ih =>
    have hx : x ≠ c := fun e => h (by simp [e])
    have hxs : c ∉ xs := fun m => h (by simp [m])
    simp only [splitOnChar]
    rw [if_neg hx, ih hxs]

theorem splitOnChar_append {c : Char} {x rest : GoStr} (h : c ∉ x) :
    splitOnChar c (x ++ c :: rest) = x :: splitOnChar c rest := by
  induction x with
  | nil => simp [splitOnChar]
  | cons a as ih =>
    have ha : a ≠ c := fun e => h (by simp [e])
    have has : c ∉ as := fun m => h (by simp [m])
    simp only [List.cons_append, splitOnChar]
    rw [if_neg ha, List.append_eq, ih has]

theorem hex4_no_colon (n : Nat) : ':' ∉ hex4 n := by
  have h1 := hexDigit_ne_colon ⟨n / 4096 % 16, Nat.mod_lt _ (by norm_num)⟩
  have h2 := hexDigit_ne_colon ⟨n / 256 % 16, Nat.mod_lt _ (by norm_num)⟩
  have h3 := hexDigit_ne_colon ⟨n / 16 % 16, Nat.mod_lt _ (by norm_num)⟩
  have h4 := hexDigit_ne_colon ⟨n % 16, Nat.mod_lt _ (by norm_num)⟩
  intro hm
  simp only [hex4, List.mem_cons, List.not_mem_nil, or_false] at hm
  rcases hm with h | h | h | h
  · exact h1 h.symm
  · exact h2 h.symm
  · exact h3 h.symm
  · exact h4 h.symm

theorem parseHexGroup_hex4 (n : Nat) (h : n < 65536) :
    parseHexGroup (hex4 n) = some ⟨n, h⟩ := by
  have e1 := hexVal_hexDigit ⟨n / 4096 % 16, Nat.mod_lt _ (by norm_num)⟩
  have e2 := hexVal_hexDigit ⟨n / 256 % 16, Nat.mod_lt _ (by norm_num)⟩
  have e3 := hexVal_hexDigit ⟨n / 16 % 16, Nat.mod_lt _ (by norm_num)⟩
  have e4 := hexVal_hexDigit ⟨n % 16, Nat.mod_lt _ (by norm_num)⟩
  have hv : ((((0 * 16 + n / 4096 % 16) * 16 + n / 256 % 16) * 16 + n / 16 % 16) * 16 + n % 16)
      = n := by omega
  simp only [parseHexGroup, hex4, List.mapM_cons, List.mapM_nil, e1, e2, e3, e4,
    Option.pure_def, Option.bind_some, Option.bind_eq_bind, Option.some_bind]
  rw [if_neg (by simp)]
  have hfold : List.foldl (fun acc d => acc * 16 + d) 0
      [n / 4096 % 16, n / 256 % 16, n / 16 % 16, n % 16] = n := by
    simp only [List.foldl]
    omega
  simp only [hfold]
  rw [dif_pos h]

theorem v4_str_no_colon (x y z w : Fin 256) : ':' ∉ NetipAddr.str (.v4 x y z w) := by
  have hx := (natToDec_no_sep x).2
  have hy := (natToDec_no_sep y).2
  have hz := (natToDec_no_sep z).2
  have hw := (natToDec_no_sep w).2
  intro hm
  simp only [NetipAddr.str, List.mem_append, List.mem_cons] at hm
  rcases hm with ((h | h | h) | h | h) | h | h
  · exact hx h
  · exact absurd h (by decide)
  · exact hy h
  · exact absurd h (by decide)
  · exact hz h
  · exact absurd h (by decide)
  · exact hw h

/-- Printing an address yields a literal that parses back to the same
address (the boundary law the codec round-trip relies on). -/
theorem parseAddr_str (a : NetipAddr) : parseAddr (NetipAddr.str a) = some a := by
  cases a with
  | v4 x y z w =>
    simp only [parseAddr]
    rw [if_neg (v4_str_no_colon x y z w)]
    have hsplit : splitOnChar '.' (NetipAddr.str (.v4 x y z w)) =
        [natToDec x.val, natToDec y.val, natToDec z.val, natToDec w.val] := by
      simp only [NetipAddr.str, List.append_assoc, List.cons_append]
      rw [splitOnChar_append (natToDec_no_sep x).1,
          splitOnChar_append (natToDec_no_sep y).1,
          splitOnChar_append (natToDec_no_sep z).1,
          splitOnChar_no_sep (natToDec_no_sep w).1]
    simp only [parseV4, hsplit, parseDecOctet_natToDec]
  | v6 g0 g1 g2 g3 g4 g5 g6 g7 =>
    have hc : ':' ∈ NetipAddr.str (.v6 g0 g1 g2 g3 g4 g5 g6 g7) := by
      simp [NetipAddr.str]
    simp only [parseAddr]
    rw [if_pos hc]
    have hsplit : splitOnChar ':' (NetipAddr.str (.v6 g0 g1 g2 g3 g4 g5 g6 g7)) =
        [hex4 g0.val, hex4 g1.val, hex4 g2.val, hex4 g3.val,
         hex4 g4.val, hex4 g5.val, hex4 g6.val, hex4 g7.val] := by
      simp only [NetipAddr.str, List.append_assoc, List.cons_append]
      rw [splitOnChar_append (hex4_no_colon _), splitOnChar_append (hex4_no_colon _),
          splitOnChar_append (hex4_no_colon _), splitOnChar_append (hex4_no_colon _),
          splitOnChar_append (hex4_no_colon _), splitOnChar_append (hex4_no_colon _),
          splitOnChar_append (hex4_no_colon _),
          splitOnChar_no_sep (hex4_no_colon _)]
    simp only [parseV6, hsplit]
    rw [parseHexGroup_hex4 g0.val g0.isLt, parseHexGroup_hex4 g1.val g1.isLt,
        parseHexGroup_hex4 g2.val g2.isLt, parseHexGroup_hex4 g3.val g3.isLt,
        parseHexGroup_hex4 g4.val g4.isLt, parseHexGroup_hex4 g5.val g5.isLt,
        parseHexGroup_hex4 g6.val g6.isLt, parseHexGroup_hex4 g7.val g7.isLt]

theorem durSeconds_mul_cancel (t : Int) : durSeconds (t * 1000000000) = t := by
  simp only [durSeconds]
  exact Int.mul_tdiv_cancel t (by norm_num)

/-- C6 (counterexample): the round-trip claim fails for TXT at the text
`"`; wrapping it is a no-op, the read side then strips the lone quote, and
re-wrapping the now-empty text produces `""`, a different provider record. -/
theorem claim6_counterexample_txt_quote :
    toLibDNSRecord (arvancloudRecord sampleQuoteTxtInput) (gs "example.com") =
      .ok (.txt (gs "note") 120000000000 []) ∧
    arvancloudRecord (.txt (gs "note") 120000000000 []) ≠
      arvancloudRecord sampleQuoteTxtInput := by decide

/-- C6 (amended): for the explicitly modelled record types (address,
CNAME, NS, MX, SRV, CAA, TXT — not the generic fallback), a generic record
whose name is stable under zone-relativization round-trips:
`toGeneric(toProvider(r))` succeeds and `toProvider` of the result equals
`toProvider(r)` — for TXT under the additional proviso (forced by the
counterexample) that the text consists of characters the quote-wrapper
passes through unescaped. -/
theorem claim6_roundtrip_amended (zone : GoStr) (r : Rec)
    (hknown : ∀ n t ty d, r ≠ .rr n t ty d)
    (hname : relativeName r.rrName zone = r.rrName)
    (htxt : ∀ n t tx, r = .txt n t tx → plainText tx) :
    ∃ r2, toLibDNSRecord (arvancloudRecord r) zone = .ok r2 ∧
      arvancloudRecord r2 = arvancloudRecord r := by
  cases r with
  | rr n t ty d => exact absurd rfl (hknown n t ty d)
  | address n t ip =>
    simp only [Rec.rrName] at hname
    cases ip with
    | v4 a b c d =>
      have hp := parseAddr_str (NetipAddr.v4 a b c d)
      refine ⟨.address (relativeName n zone) (durSeconds t * 1000000000) (.v4 a b c d),
        ?_, ?_⟩
      · simp only [toLibDNSRecord, arvancloudRecord, mkArRecord, Rec.rrType, Rec.rrName,
          Rec.rrTTL, NetipAddr.is4, GoValue.asARec, hp]
        simp
      · simp only [arvancloudRecord, mkArRecord, Rec.rrType, Rec.rrName, Rec.rrTTL,
          NetipAddr.is4, hname, durSeconds_mul_cancel]
    | v6 g0 g1 g2 g3 g4 g5 g6 g7 =>
      have hp := parseAddr_str (NetipAddr.v6 g0 g1 g2 g3 g4 g5 g6 g7)
      refine ⟨.address (relativeName n zone) (durSeconds t * 1000000000)
        (.v6 g0 g1 g2 g3 g4 g5 g6 g7), ?_, ?_⟩
      · simp only [toLibDNSRecord, arvancloudRecord, mkArRecord, Rec.rrType, Rec.rrName,
          Rec.rrTTL, NetipAddr.is4, GoValue.asARec, hp]
        simp
      · simp only [arvancloudRecord, mkArRecord, Rec.rrType, Rec.rrName, Rec.rrTTL,
          NetipAddr.is4, hname, durSeconds_mul_cancel]
  | cname n t tg =>
    simp only [Rec.rrName] at hname
    refine ⟨.cname (relativeName n zone) (durSeconds t * 1000000000) tg, rfl, ?_⟩
    simp only [arvancloudRecord, mkArRecord, Rec.rrType, Rec.rrName, Rec.rrTTL,
      hname, durSeconds_mul_cancel]
  | ns n t tg =>
    simp only [Rec.rrName] at hname
    refine ⟨.ns (relativeName n zone) (durSeconds t * 1000000000) tg, rfl, ?_⟩
    simp only [arvancloudRecord, mkArRecord, Rec.rrType, Rec.rrName, Rec.rrTTL,
      hname, durSeconds_mul_cancel]
  | mx n t p tg =>
    simp only [Rec.rrName] at hname
    refine ⟨.mx (relativeName n zone) (durSeconds t * 1000000000) p tg, rfl, ?_⟩
    simp only [arvancloudRecord, mkArRecord, Rec.rrType, Rec.rrName, Rec.rrTTL,
      hname, durSeconds_mul_cancel]
  | srv n t p w po tg =>
    simp only [Rec.rrName] at hname
    refine ⟨.srv (relativeName n zone) (durSeconds t * 1000000000) p w po tg, rfl, ?_⟩
    simp only [arvancloudRecord, mkArRecord, Rec.rrType, Rec.rrName, Rec.rrTTL,
      hname, durSeconds_mul_cancel]
  | caa n t tag v =>
    simp only [Rec.rrName] at hname
    refine ⟨.caa (relativeName n zone) (durSeconds t * 1000000000) tag v, rfl, ?_⟩
    simp only [arvancloudRecord, mkArRecord, Rec.rrType, Rec.rrName, Rec.rrTTL,
      hname, durSeconds_mul_cancel]
  | txt n t tx =>
    simp only [Rec.rrName] at hname
    have hptx : plainText tx := htxt n t tx rfl
    have hun : unwrapContent (wrapContent tx) = tx := by
      rw [wrapContent_plain hptx]
      exact unwrapContent_quote_wrap tx
    refine ⟨.txt (relativeName n zone) (durSeconds t * 1000000000)
      (unwrapContent (wrapContent tx)), rfl, ?_⟩
    simp only [arvancloudRecord, mkArRecord, Rec.rrType, Rec.rrName, Rec.rrTTL,
      hname, durSeconds_mul_cancel, hun]

/-- C6 witness: a plain-text TXT record round-trips through the codec. -/
theorem claim6_witness :
    ∃ r2, toLibDNSRecord (arvancloudRecord sampleTxtInput) (gs "example.com") = .ok r2 ∧
      arvancloudRecord r2 = arvancloudRecord sampleTxtInput :=
  claim6_roundtrip_amended (gs "example.com") sampleTxtInput
    (fun _ _ _ _ h => nomatch h) (by decide)
    (by intro n t tx h; cases h; decide)
